import Mathlib

/-!
Verification of the registro service registry (package `client` plus the
registry core described by the design spec).

The `client` package sources give the data model (`Instance`, `Application`,
`StatusType`) and the query operations (`GetInstance`,
`GetAvailableInstances`, `NewInstance`, `NewApplication`); these are
embedded directly from the Go source.  The server-side registry operations
(renewal, deregistration, the staleness sweep, application registration and
lookup) are not part of the sources at hand, so they are modelled from the
spec, each marked `Modelled from the spec:` in its doc comment.

Timestamps (`time.Now().Unix()` in Go) are embedded as explicit `Int`
parameters `now`; statuses keep the source's open string representation.
-/

set_option autoImplicit false

namespace Registro

/-- StatusType represents an instance status.  The Go source declares it as
`type StatusType string`, an open string-like enum. -/
abbrev StatusType := String

/-- UP represents an instance receiving requests. -/
def UP : StatusType := "up"

/-- DOWN represents an instance that has not sent heartbeats after some time. -/
def DOWN : StatusType := "down"

/-- STARTING represents an instance that has registered, but has not yet sent
any heartbeats. -/
def STARTING : StatusType := "starting"

/-- OUTOFSERVICE represents an instance that has been deliberately deleted. -/
def OUTOFSERVICE : StatusType := "out-of-service"

/-- Instance represents a service running an application (Go struct
`Instance` with fields `Id`, `IPAddr`, `Port`, `Status`, `LastRenewal`). -/
structure Instance where
  Id : String
  IPAddr : String
  Port : Int
  Status : StatusType
  LastRenewal : Int
  deriving Repr, DecidableEq

/-- NewInstance returns a new Instance object with the specified data.
The Go function sets `Status: STARTING` and `LastRenewal: time.Now().Unix()`;
the current time is passed explicitly as `now`. -/
def NewInstance (id ip : String) (port : Int) (now : Int) : Instance :=
  { Id := id
    IPAddr := ip
    Port := port
    Status := STARTING
    LastRenewal := now }

/-- Application represents an app registered to the server (Go struct with
`Name` and the slice `Instances`). -/
structure Application where
  Name : String
  Instances : List Instance
  deriving Repr, DecidableEq

/-- NewApplication returns a new Application object with the specified name
and an empty instance slice (`make([]*Instance, 0)`). -/
def NewApplication (name : String) : Application :=
  { Name := name
    Instances := [] }

/-- The loop body of `Application.GetInstance`: scan the slice and return the
first instance whose `Id` matches, or `nil` (here `none`). -/
def findInst : List Instance → String → Option Instance
  | [], _ => none
  | inst :: rest, id => if inst.Id = id then some inst else findInst rest id

/-- GetInstance returns the instance with the specified id (first match in
slice order), or `nil` when no instance matches. -/
def Application.GetInstance (a : Application) (id : String) : Option Instance :=
  findInst a.Instances id

/-- GetAvailableInstances returns all instances with status UP.  The Go
source starts from an empty slice and appends every instance whose `Status`
is `UP`, in slice order. -/
def Application.GetAvailableInstances (a : Application) : List Instance :=
  a.Instances.foldl (fun acc inst => if inst.Status = UP then acc ++ [inst] else acc) []

/-- The Go append-loop of `GetAvailableInstances` computes the (order
preserving) filter of the slice. -/
theorem foldl_append_filter (l acc : List Instance) :
    l.foldl (fun acc inst => if inst.Status = UP then acc ++ [inst] else acc) acc
      = acc ++ l.filter (fun inst => inst.Status = UP) := by
  induction l generalizing acc with
  | nil => simp
  | cons head tail ih =>
    by_cases h : head.Status = UP
    · simp [List.foldl_cons, h, ih, List.filter_cons]
    · simp [List.foldl_cons, h, ih, List.filter_cons]

/-- Characterisation of `GetAvailableInstances` as a filter over the instance slice. -/
theorem getAvailableInstances_eq_filter (a : Application) :
    a.GetAvailableInstances = a.Instances.filter (fun inst => inst.Status = UP) := by
  unfold Application.GetAvailableInstances
  simpa using foldl_append_filter a.Instances []

/-- C2: For every Application and every mix of instance statuses,
`GetAvailableInstances` returns exactly the subsequence of `app.Instances`
whose status is UP: every returned instance has status UP and belongs to the
collection, every instance of the collection with status UP is returned, and
instances with any other status (STARTING, DOWN, OUT_OF_SERVICE included)
are excluded. -/
theorem C2_available_filter (a : Application) :
    a.GetAvailableInstances = a.Instances.filter (fun inst => inst.Status = UP)
    ∧ (∀ inst ∈ a.GetAvailableInstances, inst.Status = UP ∧ inst ∈ a.Instances)
    ∧ (∀ inst ∈ a.Instances, inst.Status = UP → inst ∈ a.GetAvailableInstances)
    ∧ (∀ inst ∈ a.Instances, inst.Status ≠ UP → inst ∉ a.GetAvailableInstances) := by
  refine ⟨getAvailableInstances_eq_filter a, ?_, ?_, ?_⟩
  · intro inst hmem
    rw [getAvailableInstances_eq_filter] at hmem
    have h := List.mem_filter.mp hmem
    exact ⟨by simpa using h.2, h.1⟩
  · intro inst hmem hup
    rw [getAvailableInstances_eq_filter]
    exact List.mem_filter.mpr ⟨hmem, by simpa using hup⟩
  · intro inst _ hne hmem
    rw [getAvailableInstances_eq_filter] at hmem
    exact hne (by simpa using (List.mem_filter.mp hmem).2)

/-- A concrete application mixing all four statuses, used by witnesses. -/
def sampleApp : Application :=
  Application.mk "orders-api"
    [⟨"i1", "10.0.0.1", 9000, STARTING, 0⟩,
     ⟨"i2", "10.0.0.2", 9000, UP, 5⟩,
     ⟨"i3", "10.0.0.3", 9000, DOWN, 1⟩,
     ⟨"i4", "10.0.0.4", 9000, OUTOFSERVICE, 2⟩]

/-- Witness for C2: on `sampleApp` the UP instance "i2" is returned by
`GetAvailableInstances`. -/
theorem C2_available_filter_witness :
    (⟨"i2", "10.0.0.2", 9000, UP, 5⟩ : Instance) ∈ sampleApp.GetAvailableInstances :=
  (C2_available_filter sampleApp).2.2.1 ⟨"i2", "10.0.0.2", 9000, UP, 5⟩
    (by decide) (by decide)

/-- Modelled from the spec: the error taxonomy of §7 (the server package,
which raises these, is not among the sources at hand). -/
inductive RegError where
  | NotFoundError
  | ConflictError
  | IllegalStateError
  deriving Repr, DecidableEq

/-- Replace the first instance with the given id, applying `f` to it.  This
models a write through the pointer returned by `GetInstance` on a Go slice
of pointers: only the first matching element is affected. -/
def replaceFirst : List Instance → String → (Instance → Instance) → List Instance
  | [], _, _ => []
  | inst :: rest, id, f =>
      if inst.Id = id then f inst :: rest else inst :: replaceFirst rest id f

/-- The state update a successful heartbeat renewal applies to an instance
(spec §4.3: status becomes UP, `lastRenewal` is set to now). -/
def markRenewed (now : Int) (i : Instance) : Instance :=
  { i with Status := UP, LastRenewal := now }

/-- The state update deregistration applies to an instance (spec §4.3:
status becomes OUT_OF_SERVICE, `lastRenewal` is refreshed). -/
def markDeregistered (now : Int) (i : Instance) : Instance :=
  { i with Status := OUTOFSERVICE, LastRenewal := now }

/-- Modelled from the spec: `RenewInstance(appName, id)` at the Application
level (the server-side renewal handler is not among the sources at hand).
Per §4.3, renewal is allowed from STARTING, DOWN or UP, transitions to UP and
sets `lastRenewal = now`; it is forbidden from OUT_OF_SERVICE, failing with
IllegalStateError; a missing id fails with NotFoundError.  The pair returns
the outcome and the (possibly updated) application state. -/
def Application.RenewInstance (a : Application) (id : String) (now : Int) :
    Except RegError Unit × Application :=
  match a.GetInstance id with
  | none => (Except.error RegError.NotFoundError, a)
  | some inst =>
      if inst.Status = OUTOFSERVICE then
        (Except.error RegError.IllegalStateError, a)
      else
        (Except.ok (), { a with Instances := replaceFirst a.Instances id (markRenewed now) })

/-- Modelled from the spec: `DeregisterInstance(appName, id)` at the
Application level (the server-side handler is not among the sources at
hand).  Per §4.3, deregistration transitions any non-OUT_OF_SERVICE status
to OUT_OF_SERVICE and refreshes `lastRenewal`; on an already-OUT_OF_SERVICE
instance it is a no-op success; a missing id fails with NotFoundError. -/
def Application.DeregisterInstance (a : Application) (id : String) (now : Int) :
    Except RegError Unit × Application :=
  match a.GetInstance id with
  | none => (Except.error RegError.NotFoundError, a)
  | some inst =>
      if inst.Status = OUTOFSERVICE then
        (Except.ok (), a)
      else
        (Except.ok (), { a with Instances := replaceFirst a.Instances id (markDeregistered now) })

/-- Modelled from the spec: design default `renewalTimeout = 90s` (§4.3). -/
def renewalTimeout : Int := 90

/-- Modelled from the spec: design default `evictionTimeout = 10min` (§4.3). -/
def evictionTimeout : Int := 600

/-- Modelled from the spec: the per-instance action of a staleness-sweep tick
(§4.3/§4.4; the sweep task is not among the sources at hand).  The
missed-heartbeat rule is applied first: a STARTING or UP instance with
`now - lastRenewal > renewalTimeout` is marked DOWN, without touching
`lastRenewal`.  The eviction rule is applied second and requires DOWN to
have persisted from before the tick: only an instance already DOWN at the
start of the tick, with `now - lastRenewal > evictionTimeout`, is removed
(`none`). -/
def Instance.sweep (now : Int) (inst : Instance) : Option Instance :=
  let marked :=
    if (inst.Status = STARTING ∨ inst.Status = UP)
        ∧ now - inst.LastRenewal > renewalTimeout
    then { inst with Status := DOWN }
    else inst
  if inst.Status = DOWN ∧ now - inst.LastRenewal > evictionTimeout then none
  else some marked

/-- Modelled from the spec: one sweep tick over an Application walks every
instance in order, applying `Instance.sweep` and dropping evicted ones
(§4.4). -/
def Application.sweep (now : Int) (a : Application) : Application :=
  { a with Instances := a.Instances.filterMap (Instance.sweep now) }

/-- Modelled from the spec: `AddInstance(appName, id, address)` at the
Application level (the server-side handler is not among the sources at
hand).  Per §4.2, it constructs a new Instance via `NewInstance` (status
STARTING, `lastRenewal = now`), fails with ConflictError if the id already
exists, and appends the new instance to `app.Instances`. -/
def Application.AddInstance (a : Application) (id ip : String) (port : Int) (now : Int) :
    Except RegError (Instance × Application) :=
  match a.GetInstance id with
  | some _ => Except.error RegError.ConflictError
  | none =>
      Except.ok (NewInstance id ip port now,
        { a with Instances := a.Instances ++ [NewInstance id ip port now] })

/-- Modelled from the spec: the Registry owns the collection of
Applications, keyed by name (§3). -/
structure Registry where
  applications : List Application
  deriving Repr, DecidableEq

/-- First-match lookup of an Application by name (spec §4.1: O(n) lookup). -/
def findApp : List Application → String → Option Application
  | [], _ => none
  | app :: rest, name => if app.Name = name then some app else findApp rest name

/-- Modelled from the spec: `find(name) -> Application | not found` (§4.1);
absence is a valid result (`none`), not an error. -/
def Registry.FindApplication (r : Registry) (name : String) : Option Application :=
  findApp r.applications name

/-- Modelled from the spec: `register(name) -> Application` (§4.1): if an
Application with `name` exists it is returned unchanged, otherwise an empty
Application is created via `NewApplication` and inserted. -/
def Registry.RegisterApplication (r : Registry) (name : String) :
    Application × Registry :=
  match r.FindApplication name with
  | some app => (app, r)
  | none => (NewApplication name, Registry.mk (r.applications ++ [NewApplication name]))

/-- The number of applications with a given name in a registry's list. -/
def countName (l : List Application) (name : String) : Nat :=
  (l.filter (fun a => a.Name = name)).length

/-- The scan `findInst` misses exactly when no instance in the slice has the id. -/
theorem findInst_eq_none_iff (l : List Instance) (id : String) :
    findInst l id = none ↔ ∀ j ∈ l, j.Id ≠ id := by
  induction l with
  | nil => simp [findInst]
  | cons head tail ih =>
    by_cases h : head.Id = id
    · simp [findInst, h]
    · simp [findInst, h, ih]

/-- A hit of `findInst` has the requested id and belongs to the slice. -/
theorem findInst_some_mem (l : List Instance) (id : String) (inst : Instance) :
    findInst l id = some inst → inst.Id = id ∧ inst ∈ l := by
  induction l with
  | nil => simp [findInst]
  | cons head tail ih =>
    by_cases h : head.Id = id
    · intro hs
      simp only [findInst, if_pos h, Option.some.injEq] at hs
      subst hs
      exact ⟨h, List.mem_cons_self _ _⟩
    · intro hs
      simp only [findInst, if_neg h] at hs
      have := ih hs
      exact ⟨this.1, List.mem_cons_of_mem _ this.2⟩

/-- Updating the first instance with a given id through an id-preserving
function updates exactly the instance `findInst` returns. -/
theorem findInst_replaceFirst (l : List Instance) (id : String)
    (f : Instance → Instance) (inst : Instance) (hf : ∀ i, (f i).Id = i.Id) :
    findInst l id = some inst →
      findInst (replaceFirst l id f) id = some (f inst) := by
  induction l with
  | nil => simp [findInst]
  | cons head tail ih =>
    by_cases h : head.Id = id
    · intro hs
      simp only [findInst, if_pos h, Option.some.injEq] at hs
      subst hs
      simp [replaceFirst, if_pos h, findInst, hf head, h]
    · intro hs
      simp only [findInst, if_neg h] at hs
      simp [replaceFirst, if_neg h, findInst, h, ih hs]

/-- C1: for every instance whose status is OUT_OF_SERVICE, `RenewInstance`
fails with IllegalStateError and leaves the application (hence the
instance's status and `lastRenewal`) unchanged: the instance is still found
with its old state afterwards, so renewal never transitions an
OUT_OF_SERVICE instance to any other status. -/
theorem C1_renew_rejects_out_of_service (a : Application) (id : String)
    (now : Int) (inst : Instance) (hfind : a.GetInstance id = some inst)
    (hoos : inst.Status = OUTOFSERVICE) :
    a.RenewInstance id now = (Except.error RegError.IllegalStateError, a)
    ∧ ((a.RenewInstance id now).2).GetInstance id = some inst := by
  have h : a.RenewInstance id now = (Except.error RegError.IllegalStateError, a) := by
    unfold Application.RenewInstance
    rw [hfind]
    simp [hoos]
  exact ⟨h, by rw [h]; exact hfind⟩

/-- Witness for C1: renewing the OUT_OF_SERVICE instance "i4" of `sampleApp`
fails with IllegalStateError and leaves the application unchanged. -/
theorem C1_renew_rejects_out_of_service_witness :
    sampleApp.RenewInstance "i4" 100
        = (Except.error RegError.IllegalStateError, sampleApp)
    ∧ ((sampleApp.RenewInstance "i4" 100).2).GetInstance "i4"
        = some ⟨"i4", "10.0.0.4", 9000, OUTOFSERVICE, 2⟩ :=
  C1_renew_rejects_out_of_service sampleApp "i4" 100
    ⟨"i4", "10.0.0.4", 9000, OUTOFSERVICE, 2⟩ (by decide) (by decide)

/-- C3: deregistration is idempotent.  A first `DeregisterInstance` on any
found instance succeeds and leaves the instance OUT_OF_SERVICE; a second
call on the already-OUT_OF_SERVICE instance succeeds as a no-op (the
application is returned unchanged), with the status OUT_OF_SERVICE both
times. -/
theorem C3_deregister_idempotent (a : Application) (id : String)
    (now now' : Int) (inst : Instance) (hfind : a.GetInstance id = some inst) :
    (a.DeregisterInstance id now).1 = Except.ok ()
    ∧ (∃ inst1, ((a.DeregisterInstance id now).2).GetInstance id = some inst1
        ∧ inst1.Status = OUTOFSERVICE)
    ∧ ((a.DeregisterInstance id now).2).DeregisterInstance id now'
        = (Except.ok (), (a.DeregisterInstance id now).2) := by
  by_cases hoos : inst.Status = OUTOFSERVICE
  · have h1 : a.DeregisterInstance id now = (Except.ok (), a) := by
      unfold Application.DeregisterInstance
      rw [hfind]
      simp [hoos]
    refine ⟨by rw [h1], ⟨inst, by rw [h1]; exact hfind, hoos⟩, ?_⟩
    rw [h1]
    unfold Application.DeregisterInstance
    rw [hfind]
    simp [hoos]
  · have h1 : a.DeregisterInstance id now
        = (Except.ok (), { a with Instances := replaceFirst a.Instances id (markDeregistered now) }) := by
      unfold Application.DeregisterInstance
      rw [hfind]
      simp [hoos]
    have hfind1 : ({ a with Instances := replaceFirst a.Instances id (markDeregistered now) } :
            Application).GetInstance id
        = some (markDeregistered now inst) := by
      unfold Application.GetInstance at hfind ⊢
      exact findInst_replaceFirst a.Instances id _ inst (fun i => rfl) hfind
    refine ⟨by rw [h1], ⟨markDeregistered now inst,
      by rw [h1]; exact hfind1, rfl⟩, ?_⟩
    rw [h1]
    unfold Application.DeregisterInstance
    rw [hfind1]
    simp [markDeregistered]

/-- Witness for C3: deregistering the UP instance "i2" of `sampleApp` twice
succeeds both times and leaves it OUT_OF_SERVICE. -/
theorem C3_deregister_idempotent_witness :
    ((sampleApp.DeregisterInstance "i2" 50).1 = Except.ok ()
    ∧ (∃ inst1, ((sampleApp.DeregisterInstance "i2" 50).2).GetInstance "i2" = some inst1
        ∧ inst1.Status = OUTOFSERVICE)
    ∧ ((sampleApp.DeregisterInstance "i2" 50).2).DeregisterInstance "i2" 60
        = (Except.ok (), (sampleApp.DeregisterInstance "i2" 50).2)) :=
  C3_deregister_idempotent sampleApp "i2" 50 60
    ⟨"i2", "10.0.0.2", 9000, UP, 5⟩ (by decide)

/-- C4: a newly constructed Instance (as produced by `NewInstance`) has
status STARTING and `LastRenewal` equal to the current time at creation,
for every id, address and port. -/
theorem C4_new_instance_starting (id ip : String) (port : Int) (now : Int) :
    (NewInstance id ip port now).Status = STARTING
    ∧ (NewInstance id ip port now).LastRenewal = now :=
  ⟨rfl, rfl⟩

/-- A sweep survivor keeps its id: `Instance.sweep` never changes `Id`. -/
theorem Instance.sweep_some_id (now : Int) (i k : Instance)
    (h : i.sweep now = some k) : k.Id = i.Id := by
  simp only [Instance.sweep] at h
  by_cases hevict : i.Status = DOWN ∧ now - i.LastRenewal > evictionTimeout
  · rw [if_pos hevict] at h
    exact absurd h (by simp)
  · rw [if_neg hevict] at h
    by_cases hmark : (i.Status = STARTING ∨ i.Status = UP)
        ∧ now - i.LastRenewal > renewalTimeout
    · rw [if_pos hmark] at h
      injection h with h
      rw [← h]
    · rw [if_neg hmark] at h
      injection h with h
      rw [← h]

/-- C5: the sweep's staleness comparisons are strict.  With
`renewalTimeout = 90`, a STARTING or UP instance last renewed 91s ago is
marked DOWN on the next tick without modifying `lastRenewal`, while one
renewed 89s ago is untouched; with `evictionTimeout = 600`, a DOWN instance
whose renewal is 601s in the past is removed (`none`), while one at 599s
survives unchanged. -/
theorem C5_sweep_strict_thresholds (i : Instance) (now : Int) :
    ((i.Status = STARTING ∨ i.Status = UP) → now - i.LastRenewal = 91 →
        i.sweep now = some { i with Status := DOWN })
    ∧ ((i.Status = STARTING ∨ i.Status = UP) → now - i.LastRenewal = 89 →
        i.sweep now = some i)
    ∧ (i.Status = DOWN → now - i.LastRenewal = 601 → i.sweep now = none)
    ∧ (i.Status = DOWN → now - i.LastRenewal = 599 → i.sweep now = some i) := by
  refine ⟨?_, ?_, ?_, ?_⟩
  · intro h hgap
    have hnotDown : ¬i.Status = DOWN := by
      rcases h with h | h <;> rw [h] <;> simp [STARTING, UP, DOWN]
    simp only [Instance.sweep]
    rw [if_neg (fun hc => hnotDown hc.1),
      if_pos ⟨h, by rw [hgap]; simp [renewalTimeout]⟩]
  · intro h hgap
    have hnotDown : ¬i.Status = DOWN := by
      rcases h with h | h <;> rw [h] <;> simp [STARTING, UP, DOWN]
    have hnot90 : ¬now - i.LastRenewal > renewalTimeout := by
      rw [hgap]; simp [renewalTimeout]
    simp only [Instance.sweep]
    rw [if_neg (fun hc => hnotDown hc.1), if_neg (fun hc => hnot90 hc.2)]
  · intro h hgap
    simp only [Instance.sweep]
    rw [if_pos ⟨h, by rw [hgap]; simp [evictionTimeout]⟩]
  · intro h hgap
    have hnot600 : ¬now - i.LastRenewal > evictionTimeout := by
      rw [hgap]; simp [evictionTimeout]
    have hnotStartingUp : ¬(i.Status = STARTING ∨ i.Status = UP) := by
      rw [h]
      simp [STARTING, UP, DOWN]
    simp only [Instance.sweep]
    rw [if_neg (fun hc => hnot600 hc.2), if_neg (fun hc => hnotStartingUp hc.1)]

/-- Witness for C5: a STARTING instance 91s stale is marked DOWN, and a DOWN
instance 601s stale is evicted. -/
theorem C5_sweep_strict_thresholds_witness :
    (⟨"i1", "10.0.0.1", 9000, STARTING, 0⟩ : Instance).sweep 91
        = some ⟨"i1", "10.0.0.1", 9000, DOWN, 0⟩
    ∧ (⟨"i3", "10.0.0.3", 9000, DOWN, 0⟩ : Instance).sweep 601 = none :=
  ⟨(C5_sweep_strict_thresholds ⟨"i1", "10.0.0.1", 9000, STARTING, 0⟩ 91).1
      (Or.inl rfl) (by decide),
   (C5_sweep_strict_thresholds ⟨"i3", "10.0.0.3", 9000, DOWN, 0⟩ 601).2.2.1
      rfl (by decide)⟩

/-- C7: the missed-heartbeat rule is applied before the eviction rule, and
eviction requires the instance to have been DOWN already before the tick:
an instance that is not DOWN at the start of a tick is never removed by that
tick, and in particular a STARTING or UP instance stale beyond even the
eviction threshold is only marked DOWN (keeping its `lastRenewal`), not
evicted, in that tick. -/
theorem C7_no_same_tick_eviction (i : Instance) (now : Int) :
    (i.Status ≠ DOWN → (i.sweep now).isSome = true)
    ∧ ((i.Status = STARTING ∨ i.Status = UP) →
        now - i.LastRenewal > evictionTimeout →
        i.sweep now = some { i with Status := DOWN }) := by
  constructor
  · intro hnotDown
    simp only [Instance.sweep]
    rw [if_neg (fun hc => hnotDown hc.1)]
    simp
  · intro h hgap
    have hnotDown : ¬i.Status = DOWN := by
      rcases h with h | h <;> rw [h] <;> simp [STARTING, UP, DOWN]
    have hgt : now - i.LastRenewal > renewalTimeout := by
      have : renewalTimeout < evictionTimeout := by simp [renewalTimeout, evictionTimeout]
      exact lt_trans this hgap
    simp only [Instance.sweep]
    rw [if_neg (fun hc => hnotDown hc.1), if_pos ⟨h, hgt⟩]

/-- Witness for C7: an UP instance 1000s stale (past both thresholds) is
marked DOWN, not evicted, on the tick. -/
theorem C7_no_same_tick_eviction_witness :
    (⟨"i2", "10.0.0.2", 9000, UP, 0⟩ : Instance).sweep 1000
        = some ⟨"i2", "10.0.0.2", 9000, DOWN, 0⟩ :=
  (C7_no_same_tick_eviction ⟨"i2", "10.0.0.2", 9000, UP, 0⟩ 1000).2
    (Or.inr rfl) (by decide)

/-- An instance already DOWN and past the eviction threshold is removed by
the per-instance sweep action. -/
theorem Instance.sweep_evicts (now : Int) (i : Instance)
    (hdown : i.Status = DOWN) (hgap : now - i.LastRenewal > evictionTimeout) :
    i.sweep now = none := by
  simp only [Instance.sweep]
  rw [if_pos ⟨hdown, hgap⟩]

/-- C6: eviction removes the Instance from its Application entirely and is
irreversible.  If every instance carrying a given id meets the eviction
condition (already DOWN, stale past `evictionTimeout`), then after the sweep
the id is absent from the Application, and a subsequent `AddInstance` with
the same id succeeds, appending a brand-new `NewInstance` whose status is
STARTING and whose `lastRenewal` is the new creation time (not the evicted
instance's old state). -/
theorem C6_eviction_irreversible (a : Application) (id ip : String)
    (port : Int) (now now' : Int)
    (hall : ∀ j ∈ a.Instances, j.Id = id →
        j.Status = DOWN ∧ now - j.LastRenewal > evictionTimeout) :
    (a.sweep now).GetInstance id = none
    ∧ (a.sweep now).AddInstance id ip port now'
        = Except.ok (NewInstance id ip port now',
            { a.sweep now with
                Instances := (a.sweep now).Instances ++ [NewInstance id ip port now'] })
    ∧ (NewInstance id ip port now').Status = STARTING
    ∧ (NewInstance id ip port now').LastRenewal = now' := by
  have habsent : (a.sweep now).GetInstance id = none := by
    unfold Application.GetInstance Application.sweep
    rw [findInst_eq_none_iff]
    intro k hk hkid
    rcases List.mem_filterMap.mp hk with ⟨j, hj, hjk⟩
    have hid : k.Id = j.Id := Instance.sweep_some_id now j k hjk
    have hjid : j.Id = id := by rw [← hid, hkid]
    have hcond := hall j hj hjid
    rw [Instance.sweep_evicts now j hcond.1 hcond.2] at hjk
    exact absurd hjk (by simp)
  refine ⟨habsent, ?_, rfl, rfl⟩
  unfold Application.AddInstance
  rw [habsent]

/-- Witness for C6: an application whose only instance "i1" is DOWN and 601s
stale loses it on the sweep, and re-adding "i1" creates a fresh STARTING
instance. -/
theorem C6_eviction_irreversible_witness :
    ((Application.mk "orders-api" [⟨"i1", "10.0.0.1", 9000, DOWN, 0⟩]).sweep 601).GetInstance "i1" = none
    ∧ ((Application.mk "orders-api" [⟨"i1", "10.0.0.1", 9000, DOWN, 0⟩]).sweep 601).AddInstance "i1" "10.0.0.9" 9000 700
        = Except.ok (NewInstance "i1" "10.0.0.9" 9000 700,
            { (Application.mk "orders-api" [⟨"i1", "10.0.0.1", 9000, DOWN, 0⟩]).sweep 601 with
                Instances := ((Application.mk "orders-api" [⟨"i1", "10.0.0.1", 9000, DOWN, 0⟩]).sweep 601).Instances
                  ++ [NewInstance "i1" "10.0.0.9" 9000 700] })
    ∧ (NewInstance "i1" "10.0.0.9" 9000 700).Status = STARTING
    ∧ (NewInstance "i1" "10.0.0.9" 9000 700).LastRenewal = 700 :=
  C6_eviction_irreversible (Application.mk "orders-api" [⟨"i1", "10.0.0.1", 9000, DOWN, 0⟩])
    "i1" "10.0.0.9" 9000 601 700 (by decide)

/-- The scan `findApp` misses exactly when no application in the list has the name. -/
theorem findApp_eq_none_iff (l : List Application) (name : String) :
    findApp l name = none ↔ ∀ a ∈ l, a.Name ≠ name := by
  induction l with
  | nil => simp [findApp]
  | cons head tail ih =>
    by_cases h : head.Name = name
    · simp [findApp, h]
    · simp [findApp, h, ih]

/-- The count `countName` splits over a cons cell. -/
theorem countName_cons (head : Application) (tail : List Application) (name : String) :
    countName (head :: tail) name
      = (if head.Name = name then 1 else 0) + countName tail name := by
  by_cases h : head.Name = name
  · simp [countName, List.filter_cons, h, Nat.add_comm]
  · simp [countName, List.filter_cons, h]

/-- The count `countName` is additive over append. -/
theorem countName_append (l l2 : List Application) (name : String) :
    countName (l ++ l2) name = countName l name + countName l2 name := by
  simp [countName, List.filter_append]

/-- The count `countName` vanishes exactly when no application carries the name. -/
theorem countName_eq_zero_iff (l : List Application) (name : String) :
    countName l name = 0 ↔ ∀ a ∈ l, a.Name ≠ name := by
  induction l with
  | nil => simp [countName]
  | cons head tail ih =>
    rw [countName_cons]
    by_cases h : head.Name = name
    · simp [h, ih]
    · simp [h, ih]

/-- When some application in the list carries the name, `findApp` returns a
hit whose name matches and which belongs to the list. -/
theorem findApp_mem_name (l : List Application) (name : String) :
    ∀ app ∈ l, app.Name = name →
      ∃ b, findApp l name = some b ∧ b.Name = name ∧ b ∈ l := by
  induction l with
  | nil => intro app hmem; cases hmem
  | cons head tail ih =>
    intro app hmem hname
    by_cases h : head.Name = name
    · exact ⟨head, by simp [findApp, h], h, List.mem_cons_self _ _⟩
    · rcases List.mem_cons.mp hmem with rfl | hmem'
      · exact absurd hname h
      · rcases ih app hmem' hname with ⟨b, hb, hbn, hbm⟩
        exact ⟨b, by simp [findApp, h, hb], hbn, List.mem_cons_of_mem _ hbm⟩

/-- With no duplicate of the name in the list, `findApp` returns the unique
application carrying it. -/
theorem findApp_unique (l : List Application) (name : String) :
    countName l name ≤ 1 → ∀ app ∈ l, app.Name = name → findApp l name = some app := by
  induction l with
  | nil => intro _ app hmem; cases hmem
  | cons head tail ih =>
    intro hcount app hmem hname
    by_cases h : head.Name = name
    · rcases List.mem_cons.mp hmem with rfl | hmem'
      · simp [findApp, h]
      · exfalso
        have happ : app ∈ tail.filter (fun a => a.Name = name) :=
          List.mem_filter.mpr ⟨hmem', by simp [hname]⟩
        have h1 : 1 ≤ countName tail name := by
          have hpos := List.length_pos.mpr (List.ne_nil_of_mem happ)
          simpa [countName] using hpos
        rw [countName_cons, if_pos h] at hcount
        omega
    · rcases List.mem_cons.mp hmem with rfl | hmem'
      · exact absurd hname h
      · have hcount' : countName tail name ≤ 1 := by
          rw [countName_cons, if_neg h] at hcount
          omega
        simp [findApp, h, ih hcount' app hmem' hname]

/-- C8: `RegisterApplication` is lookup-or-create.  If an Application with
the name exists, it is returned and the registry is unchanged; otherwise a
new Application with that name and an empty instance collection is appended;
and starting from a registry holding at most one Application of the name,
registering the name twice still leaves at most one Application with that
name. -/
theorem C8_register_lookup_or_create (r : Registry) (name : String) :
    (∀ app, r.FindApplication name = some app → r.RegisterApplication name = (app, r))
    ∧ (r.FindApplication name = none →
        (r.RegisterApplication name).1 = NewApplication name
        ∧ (r.RegisterApplication name).2.applications
            = r.applications ++ [NewApplication name]
        ∧ (NewApplication name).Instances = [])
    ∧ (countName r.applications name ≤ 1 →
        countName ((r.RegisterApplication name).2.RegisterApplication name).2.applications name ≤ 1) := by
  refine ⟨?_, ?_, ?_⟩
  · intro app h
    unfold Registry.RegisterApplication
    rw [h]
  · intro h
    unfold Registry.RegisterApplication
    rw [h]
    exact ⟨rfl, rfl, rfl⟩
  · intro hcount
    cases hfind : r.FindApplication name with
    | some app =>
      have hreg : r.RegisterApplication name = (app, r) := by
        unfold Registry.RegisterApplication
        rw [hfind]
      simp only [hreg]
      exact hcount
    | none =>
      have h0 : countName r.applications name = 0 :=
        (countName_eq_zero_iff r.applications name).mpr
          ((findApp_eq_none_iff r.applications name).mp hfind)
      have hreg : r.RegisterApplication name
          = (NewApplication name, Registry.mk (r.applications ++ [NewApplication name])) := by
        unfold Registry.RegisterApplication
        rw [hfind]
      have hcount1 : countName (r.applications ++ [NewApplication name]) name = 1 := by
        rw [countName_append, h0]
        simp [countName, NewApplication, List.filter_cons]
      obtain ⟨b, hb, hbn, hbm⟩ :=
        findApp_mem_name (r.applications ++ [NewApplication name]) name
          (NewApplication name) (by simp) rfl
      have hreg2 : (Registry.mk (r.applications ++ [NewApplication name])).RegisterApplication name
          = (b, Registry.mk (r.applications ++ [NewApplication name])) := by
        unfold Registry.RegisterApplication Registry.FindApplication
        simp only []
        rw [hb]
      simp only [hreg, hreg2]
      rw [hcount1]

/-- Witness for C8: registering "orders-api" twice in the empty registry
leaves a single Application with that name. -/
theorem C8_register_lookup_or_create_witness :
    countName (((Registry.mk []).RegisterApplication "orders-api").2.RegisterApplication
        "orders-api").2.applications "orders-api" ≤ 1 :=
  (C8_register_lookup_or_create (Registry.mk []) "orders-api").2.2 (by decide)

/-- C9: Application lookup treats absence as a valid result rather than an
error: for every name carried by no Application, `FindApplication` returns
`none` (its result type carries no `RegError` at all), and for every
registered name it returns an Application with that name — the unique
registered one when names are not duplicated. -/
theorem C9_find_absence_is_valid (r : Registry) (name : String) :
    ((∀ a ∈ r.applications, a.Name ≠ name) → r.FindApplication name = none)
    ∧ (∀ app ∈ r.applications, app.Name = name →
        ∃ b, r.FindApplication name = some b ∧ b.Name = name ∧ b ∈ r.applications)
    ∧ (countName r.applications name ≤ 1 →
        ∀ app ∈ r.applications, app.Name = name → r.FindApplication name = some app) := by
  refine ⟨?_, ?_, ?_⟩
  · intro h
    exact (findApp_eq_none_iff r.applications name).mpr h
  · exact findApp_mem_name r.applications name
  · intro hcount app hmem hname
    exact findApp_unique r.applications name hcount app hmem hname

/-- Witness for C9: the empty registry reports "orders-api" as absent with a
plain `none`. -/
theorem C9_find_absence_is_valid_witness :
    (Registry.mk []).FindApplication "orders-api" = none :=
  (C9_find_absence_is_valid (Registry.mk []) "orders-api").1 (by decide)

/-- A hit of `findInst` is the first match in slice order: the slice splits
into a prefix with no matching id, the hit, and a suffix. -/
theorem findInst_first_match (l : List Instance) (id : String) (inst : Instance) :
    findInst l id = some inst → inst.Id = id
      ∧ ∃ pre post, l = pre ++ inst :: post ∧ ∀ j ∈ pre, j.Id ≠ id := by
  induction l with
  | nil => simp [findInst]
  | cons head tail ih =>
    intro h
    by_cases hh : head.Id = id
    · simp only [findInst, if_pos hh, Option.some.injEq] at h
      subst h
      exact ⟨hh, [], tail, rfl, by simp⟩
    · simp only [findInst, if_neg hh] at h
      rcases ih h with ⟨hid, pre, post, heq, hpre⟩
      refine ⟨hid, head :: pre, post, by rw [heq]; rfl, ?_⟩
      intro j hj
      rcases List.mem_cons.mp hj with rfl | hj'
      · exact hh
      · exact hpre j hj'

/-- C10: the query operations are read-only views of the instance slice.
Both Go methods only read `a.Instances` (the embedding is therefore a pure
function of the application, which is left with the same length, elements
and order).  `GetAvailableInstances` builds a fresh slice that is a sublist
of `a.Instances` — it preserves the relative order and draws every element
from the collection — and `GetInstance` returns `none` exactly when no
instance matches, otherwise the first instance in slice order whose `Id`
equals the argument. -/
theorem C10_queries_read_only (a : Application) (id : String) :
    List.Sublist a.GetAvailableInstances a.Instances
    ∧ (∀ inst ∈ a.GetAvailableInstances, inst ∈ a.Instances)
    ∧ (a.GetInstance id = none ↔ ∀ j ∈ a.Instances, j.Id ≠ id)
    ∧ (∀ inst, a.GetInstance id = some inst → inst.Id = id
        ∧ ∃ pre post, a.Instances = pre ++ inst :: post ∧ ∀ j ∈ pre, j.Id ≠ id) := by
  refine ⟨?_, ?_, findInst_eq_none_iff a.Instances id,
    fun inst h => findInst_first_match a.Instances id inst h⟩
  · rw [getAvailableInstances_eq_filter]
    exact List.filter_sublist a.Instances
  · intro inst h
    rw [getAvailableInstances_eq_filter] at h
    exact (List.mem_filter.mp h).1

/-- Witness for C10: `sampleApp` has no instance "i9", and `GetInstance`
reports that as a plain `none`. -/
theorem C10_queries_read_only_witness :
    sampleApp.GetInstance "i9" = none :=
  (C10_queries_read_only sampleApp "i9").2.2.1.mpr (by decide)

end Registro
